import Mathlib

/-!
A shallow embedding of the aristo_bites content-generation pipeline.

Python strings are modelled as lists of characters (`Str`).  External
services (the structured-completion endpoint, the retrieval index, the
generation-job status endpoint) are modelled as explicit function-valued
inputs.  Raising an exception is modelled with `Except` (or `Option`
where an uncaught exception would escape a step).
-/

abbrev Str := List Char

/-! ## Data model of `agentic_rag.py` -/

structure SubQuestion where
  question : Str
deriving DecidableEq

structure SubQuestions where
  questions : List SubQuestion
deriving DecidableEq

structure SubQuestionsEvent where
  questions : List SubQuestion
deriving DecidableEq

structure SubAnswerEvent where
  question : Str
  sub_answer : Str
deriving DecidableEq

/-- The step `RAGWorkflow.generate_sub_questions` (agentic_rag.py, lines
54-84), taken after the structured completion has been parsed into
`parsed : SubQuestions`.  On success it returns the list of individually
sent `SubQuestionsEvent`s together with the bundled event the step
returns; `Except.error` carries the message of the raised `ValueError`. -/
def generate_sub_questions (num_questions : Nat) (parsed : SubQuestions) :
    Except Str (List SubQuestionsEvent × SubQuestionsEvent) :=
  let sub_questions := parsed.questions.map (fun sq => sq.question)
  if sub_questions.length ≠ num_questions then
    .error ("Expected ".data ++ (Nat.repr num_questions).data ++
      " sub-questions, but got ".data ++ (Nat.repr sub_questions.length).data)
  else
    .ok (sub_questions.map (fun question => ⟨[⟨question⟩]⟩),
         ⟨sub_questions.map (fun question => ⟨question⟩)⟩)

/-- The step `RAGWorkflow.query_llama_cloud` (agentic_rag.py, lines 86-97).
`retrieve` models `self.llama_cloud_index.as_query_engine().query`, with
`Except.error` standing for a raised exception.  The result `none` models
the uncaught `IndexError` when the event carries an empty question list
(the source reads `ev.questions[0]` unguarded). -/
def query_llama_cloud (retrieve : Str → Except Str Str) (ev : SubQuestionsEvent) :
    Option SubAnswerEvent :=
  match ev.questions.head? with
  | none => none
  | some sq =>
    let query := sq.question
    if query = [] then
      some ⟨"Unknown Question".data, "Error: Empty query".data⟩
    else
      match retrieve query with
      | .ok response => some ⟨query, response⟩
      | .error e => some ⟨query, "Error querying LlamaCloud: ".data ++ e⟩

/-- Python `sep.join(items)`. -/
def joinSep (sep : Str) : List Str → Str
  | [] => []
  | [s] => s
  | s :: t :: rest => s ++ sep ++ joinSep sep (t :: rest)

/-- The combined text built by `RAGWorkflow.combine_answers` (agentic_rag.py,
lines 107-112) from the collected answer events, in the order collected. -/
def combined_answer (result : List SubAnswerEvent) : Str :=
  joinSep "\n\n".data
    (result.map (fun event =>
      "Q: ".data ++ event.question ++ "\nA: ".data ++ event.sub_answer))

/-- One activation of the step `RAGWorkflow.combine_answers` (agentic_rag.py,
lines 99-112).  `collected` is the buffer held by `ctx.collect_events`; a
new `SubAnswerEvent` is appended, and once `num_questions` events are
collected the step emits the terminal combined result. -/
def combine_answers (num_questions : Nat) (collected : List SubAnswerEvent)
    (ev : SubAnswerEvent) : List SubAnswerEvent × Option Str :=
  let collected2 := collected ++ [ev]
  if collected2.length = num_questions then
    (collected2, some (combined_answer collected2))
  else
    (collected2, none)

/-- Feeding a sequence of `SubAnswerEvent`s (in arrival order) through
`combine_answers`, starting from buffer `collected`; the run's terminal
result, if one is emitted. -/
def runAggregator (num_questions : Nat) :
    List SubAnswerEvent → List SubAnswerEvent → Option Str
  | _, [] => none
  | collected, ev :: rest =>
    match combine_answers num_questions collected ev with
    | (_, some result) => some result
    | (collected2, none) => runAggregator num_questions collected2 rest

/-- The top-level `process_query` (agentic_rag.py, lines 115-156).
`api_key` models `os.getenv("LLAMAINDEX_API_KEY")`; `run_workflow` is the
outcome of `asyncio.run(run_workflow(user_query))`, with `Except.error`
standing for an exception escaping the workflow.  The outer `Except`
models what `process_query` itself does: `.error` is a raised exception,
`.ok` a returned string. -/
def process_query (api_key : Option Str) (run_workflow : Except Str Str) :
    Except Str Str :=
  match api_key with
  | none => .error "LLAMAINDEX_API_KEY environment variable is not set.".data
  | some _ =>
    match run_workflow with
    | .ok combined_result => .ok combined_result
    | .error e => .ok ("An error occurred during processing: ".data ++ e)

/-! ## The polling loop of `img_to_video.py` -/

/-- One poll of the generation-job status endpoint: either the request
itself raises (`exn`, caught inside the loop) or it returns a status
object with a `state` and a `failure_reason`. -/
inductive PollResponse where
  | exn (msg : Str)
  | status (state : Str) (failure_reason : Str)
deriving DecidableEq

/-- A poll response that ends the loop: a status whose state is
"completed" or "failed". -/
def isTerminalState : PollResponse → Bool
  | .exn _ => false
  | .status state _ => state = "completed".data || state = "failed".data

/-- The `for attempt in range(max_attempts)` loop of `poll_generation`
(img_to_video.py, lines 91-114), with `rem` attempts remaining and
`attempt` the index of the next poll.  `responses i` is what the i-th
call to `client.generations.get` produces. -/
def poll_generation_loop (responses : Nat → PollResponse) :
    Nat → Nat → Except Str Unit
  | 0, _ => .error "Max attempts reached".data
  | rem + 1, attempt =>
    match responses attempt with
    | .exn _ => poll_generation_loop responses rem (attempt + 1)
    | .status state failure_reason =>
      if state = "completed".data then .ok ()
      else if state = "failed".data then
        .error ("Generation failed: ".data ++ failure_reason)
      else poll_generation_loop responses rem (attempt + 1)

/-- `poll_generation` (img_to_video.py, lines 86-117). -/
def poll_generation (max_attempts : Nat) (responses : Nat → PollResponse) :
    Except Str Unit :=
  poll_generation_loop responses max_attempts 0

/-- The tail of `generate_luma_video` (img_to_video.py, lines 36-45): after
the poll finishes, the final status is fetched and the video asset is
returned when its state is "completed". -/
def generate_luma_video_result (poll : Except Str Unit) (final_state : Str)
    (video_asset : Str) : Except Str Str :=
  match poll with
  | .error e => .error e
  | .ok _ =>
    if final_state = "completed".data then .ok video_asset
    else .error ("Generation failed with state: ".data ++ final_state)

/-! ## `structured_output_model.py` and the scene-count check of
`process_video.py` -/

def isWs (c : Char) : Bool := c.isWhitespace

/-- Worker for `pySplit`: `cur` is the word accumulated so far. -/
def words_loop : Str → Str → List Str
  | [], cur => if cur = [] then [] else [cur]
  | c :: cs, cur =>
    if isWs c then
      (if cur = [] then words_loop cs [] else cur :: words_loop cs [])
    else
      words_loop cs (cur ++ [c])

/-- Python `str.split()` with no argument: split on runs of whitespace,
dropping empty pieces. -/
def pySplit (s : Str) : List Str := words_loop s []

/-- `split_script` (structured_output_model.py, lines 16-28).  A Python
slice `words[start:end]` is `(words.drop start).take (end - start)`. -/
def split_script (script : Str) (num_parts : Nat) : List Str :=
  let words := pySplit script
  let num_words := words.length
  let words_per_part := num_words / num_parts
  (List.range num_parts).map (fun i =>
    let start_index := i * words_per_part
    let end_index :=
      if i ≠ num_parts - 1 then start_index + words_per_part else num_words
    joinSep " ".data ((words.drop start_index).take (end_index - start_index)))

structure SceneDescription where
  image_description : Str
  video_description : Str
deriving DecidableEq

structure ScriptAnalysis where
  scenes : List SceneDescription
deriving DecidableEq

/-- `extract_descriptions` (structured_output_model.py, lines 30-65), with
the structured-completion service modelled by `complete` (one parsed
`SceneDescription` per indexed script part). -/
def extract_descriptions (complete : Nat → Str → SceneDescription)
    (script : Str) (num_images : Nat) : ScriptAnalysis :=
  let script_parts := split_script script num_images
  ⟨script_parts.enum.map (fun p => complete p.1 p.2)⟩

/-- The scene-count validation of `process_main_video` (process_video.py,
lines 250-266): the expected number of images is `ceil(audio_duration / 5)`
and the script analysis produced by the extraction step must have exactly
that many scenes, else the run raises; `assemble` stands for the rest of
the pipeline, which produces the final video path only on the `ok` branch. -/
def process_main_video (audio_duration : ℚ) (script_analysis : ScriptAnalysis)
    (assemble : ScriptAnalysis → Str) : Except Str Str :=
  let num_images : ℤ := Int.ceil (audio_duration / 5)
  if (script_analysis.scenes.length : ℤ) ≠ num_images then
    .error ("Number of scenes (".data ++
      (Nat.repr script_analysis.scenes.length).data ++
      ") does not match the expected number of images (".data ++
      (toString num_images).data ++ ")".data)
  else
    .ok (assemble script_analysis)

/-! ## The round-trip parser described by the spec -/

/-- Split a character list at every occurrence of `c`, keeping empty
pieces (so the result always has one more piece than there are
occurrences of `c`). -/
def splitOnChar (c : Char) : Str → List Str
  | [] => [[]]
  | x :: xs =>
    match splitOnChar c xs with
    | r :: rs => if x = c then [] :: r :: rs else (x :: r) :: rs
    | [] => [[]]

/-- Modelled from the spec: the block structure of the parser that splits
the aggregator's combined text on the blank-line separator and the
"Q: " / "A: " markers, applied to the list of lines of the text. -/
def parseQA : List Str → List (Str × Str)
  | qline :: aline :: [] :: rest =>
    if "Q: ".data.isPrefixOf qline && "A: ".data.isPrefixOf aline then
      (qline.drop 3, aline.drop 3) :: parseQA rest
    else []
  | [qline, aline] =>
    if "Q: ".data.isPrefixOf qline && "A: ".data.isPrefixOf aline then
      [(qline.drop 3, aline.drop 3)]
    else []
  | _ => []

/-- Modelled from the spec: the parser that recovers (question, answer)
pairs from the aggregator's combined text, splitting on the "Q: " / "A: "
markers and the blank-line separator. -/
def parsePairs (s : Str) : List (Str × Str) :=
  parseQA (splitOnChar '\n' s)

/-! ## Theorems about the sub-question generator -/

/-- C2: for every configured N and every parsed structured-completion
response, a parsed sub-question count different from N makes
`generate_sub_questions` fail the run with the count-mismatch
`ValueError` message, and a count equal to N lets the run proceed. -/
theorem generate_sub_questions_count_check (n : Nat) (parsed : SubQuestions) :
    (parsed.questions.length ≠ n →
      generate_sub_questions n parsed =
        .error ("Expected ".data ++ (Nat.repr n).data ++
          " sub-questions, but got ".data ++
          (Nat.repr parsed.questions.length).data)) ∧
    (parsed.questions.length = n →
      ∃ out, generate_sub_questions n parsed = .ok out) := by
  constructor
  · intro h
    simp [generate_sub_questions, h]
  · intro h
    refine ⟨(parsed.questions.map (fun sq => ⟨[⟨sq.question⟩]⟩),
             ⟨parsed.questions.map (fun sq => ⟨sq.question⟩)⟩), ?_⟩
    simp only [generate_sub_questions]
    rw [if_neg (by simp [h])]
    rw [List.map_map, List.map_map]
    rfl

theorem generate_sub_questions_count_check_witness :
    generate_sub_questions 3 ⟨[⟨"a".data⟩, ⟨"b".data⟩]⟩ =
      .error ("Expected ".data ++ (Nat.repr 3).data ++
        " sub-questions, but got ".data ++ (Nat.repr 2).data) :=
  (generate_sub_questions_count_check 3 ⟨[⟨"a".data⟩, ⟨"b".data⟩]⟩).1 (by decide)

/-- C8 counterexample: a parsed response carrying the same question twice
passes the count check for N = 2, and the emitted questions are not
pairwise distinct. -/
theorem generate_sub_questions_duplicates_accepted :
    generate_sub_questions 2 ⟨[⟨"a".data⟩, ⟨"a".data⟩]⟩ =
      .ok ([⟨[⟨"a".data⟩]⟩, ⟨[⟨"a".data⟩]⟩], ⟨[⟨"a".data⟩, ⟨"a".data⟩]⟩) ∧
    ¬ List.Pairwise (fun q r : SubQuestion => q ≠ r)
      (SubQuestionsEvent.mk [⟨"a".data⟩, ⟨"a".data⟩]).questions :=
  ⟨rfl, by decide⟩

/-- C8 (amended): for every target count N, a parsed response with exactly
N questions makes the generator emit exactly those N questions, in order,
as both the individually sent events and the bundled return event; the
generator enforces the count but not pairwise distinctness. -/
theorem generate_sub_questions_emits_parsed (n : Nat) (parsed : SubQuestions)
    (h : parsed.questions.length = n) :
    generate_sub_questions n parsed =
      .ok (parsed.questions.map (fun sq => ⟨[⟨sq.question⟩]⟩),
           ⟨parsed.questions.map (fun sq => ⟨sq.question⟩)⟩) ∧
    (parsed.questions.map
      (fun sq => (⟨[⟨sq.question⟩]⟩ : SubQuestionsEvent))).length = n := by
  constructor
  · simp only [generate_sub_questions]
    rw [if_neg (by simp [h])]
    rw [List.map_map, List.map_map]
    rfl
  · simp [h]

theorem generate_sub_questions_emits_parsed_witness :
    generate_sub_questions 1 ⟨[⟨"a".data⟩]⟩ =
      .ok ([⟨[⟨"a".data⟩]⟩], ⟨[⟨"a".data⟩]⟩) ∧
    ([⟨[⟨"a".data⟩]⟩] : List SubQuestionsEvent).length = 1 :=
  generate_sub_questions_emits_parsed 1 ⟨[⟨"a".data⟩]⟩ rfl

/-! ## Theorems about the retrieval step -/

/-- C3: for every non-empty first sub-question, a raising retrieval call
is not propagated: the step returns exactly one answer event pairing the
original question with a text embedding the error message. -/
theorem query_llama_cloud_error_contained (retrieve : Str → Except Str Str)
    (ev : SubQuestionsEvent) (q e : Str)
    (hq : ev.questions.head? = some ⟨q⟩) (hne : q ≠ [])
    (herr : retrieve q = .error e) :
    query_llama_cloud retrieve ev =
      some ⟨q, "Error querying LlamaCloud: ".data ++ e⟩ := by
  simp [query_llama_cloud, hq, hne, herr]

theorem query_llama_cloud_error_contained_witness :
    query_llama_cloud (fun _ => .error "boom".data) ⟨[⟨"x".data⟩]⟩ =
      some ⟨"x".data, "Error querying LlamaCloud: ".data ++ "boom".data⟩ :=
  query_llama_cloud_error_contained (fun _ => .error "boom".data)
    ⟨[⟨"x".data⟩]⟩ "x".data "boom".data rfl (by decide) rfl

/-- C4: an event whose first question is the empty string short-circuits,
for every retrieval service, to the canned "Unknown Question" /
"Error: Empty query" answer. -/
theorem query_llama_cloud_empty_query (retrieve : Str → Except Str Str)
    (ev : SubQuestionsEvent) (hq : ev.questions.head? = some ⟨[]⟩) :
    query_llama_cloud retrieve ev =
      some ⟨"Unknown Question".data, "Error: Empty query".data⟩ := by
  simp [query_llama_cloud, hq]

theorem query_llama_cloud_empty_query_witness :
    query_llama_cloud (fun _ => .ok "retrieved".data) ⟨[⟨[]⟩]⟩ =
      some ⟨"Unknown Question".data, "Error: Empty query".data⟩ :=
  query_llama_cloud_empty_query (fun _ => .ok "retrieved".data) ⟨[⟨[]⟩]⟩ rfl

/-! ## Theorems about the top-level invocation -/

/-- C7: with the API key set, an exception escaping the workflow is not
re-raised by `process_query`: it is returned as a single string prefixed
with "An error occurred during processing: "; a successful run returns
the combined result. -/
theorem process_query_error_to_string (api_key : Str)
    (run_workflow : Except Str Str) :
    (∀ e, run_workflow = .error e →
      process_query (some api_key) run_workflow =
        .ok ("An error occurred during processing: ".data ++ e)) ∧
    (∀ r, run_workflow = .ok r →
      process_query (some api_key) run_workflow = .ok r) := by
  constructor
  · rintro e rfl; rfl
  · rintro r rfl; rfl

theorem process_query_error_to_string_witness :
    process_query (some "key".data) (.error "boom".data) =
      .ok ("An error occurred during processing: ".data ++ "boom".data) :=
  (process_query_error_to_string "key".data (.error "boom".data)).1
    "boom".data rfl

/-! ## Theorems about the aggregator -/

theorem runAggregator_cons_full (n : Nat) (collected : List SubAnswerEvent)
    (ev : SubAnswerEvent) (rest : List SubAnswerEvent)
    (h : (collected ++ [ev]).length = n) :
    runAggregator n collected (ev :: rest) =
      some (combined_answer (collected ++ [ev])) := by
  simp [runAggregator, combine_answers, h]

theorem runAggregator_cons_notfull (n : Nat) (collected : List SubAnswerEvent)
    (ev : SubAnswerEvent) (rest : List SubAnswerEvent)
    (h : (collected ++ [ev]).length ≠ n) :
    runAggregator n collected (ev :: rest) =
      runAggregator n (collected ++ [ev]) rest := by
  have h2 : ¬ collected.length + 1 = n := by simpa using h
  simp [runAggregator, combine_answers, h2]

theorem runAggregator_general (n : Nat) (events : List SubAnswerEvent) :
    ∀ collected : List SubAnswerEvent,
      (collected.length + events.length < n →
        runAggregator n collected events = none) ∧
      (collected.length + events.length = n → 1 ≤ events.length →
        runAggregator n collected events =
          some (combined_answer (collected ++ events))) := by
  induction events with
  | nil =>
    intro collected
    exact ⟨fun _ => rfl, fun _ h1 => absurd h1 (by simp)⟩
  | cons ev rest ih =>
    intro collected
    constructor
    · intro hlt
      have hne : (collected ++ [ev]).length ≠ n := by
        simp at hlt ⊢; omega
      rw [runAggregator_cons_notfull n collected ev rest hne]
      exact (ih (collected ++ [ev])).1 (by simp at hlt ⊢; omega)
    · intro heq _
      cases rest with
      | nil =>
        have hlen : (collected ++ [ev]).length = n := by simp at heq ⊢; omega
        rw [runAggregator_cons_full n collected ev [] hlen]
      | cons f rest2 =>
        have hne : (collected ++ [ev]).length ≠ n := by
          simp at heq ⊢; omega
        rw [runAggregator_cons_notfull n collected ev (f :: rest2) hne]
        have hrec := (ih (collected ++ [ev])).2
          (by simp at heq ⊢; omega) (by simp)
        rw [hrec, List.append_assoc]
        rfl

/-- C1: the aggregator emits a terminal result only on receiving the
N-th `SubAnswerEvent` of the run — with fewer than N arrivals it returns
no result — and the combined output lists the (question, answer) pairs in
arrival order. -/
theorem combine_answers_exact_count (n : Nat) (events : List SubAnswerEvent) :
    (events.length < n → runAggregator n [] events = none) ∧
    (1 ≤ n → events.length = n →
      runAggregator n [] events = some (combined_answer events)) := by
  constructor
  · intro h1
    exact (runAggregator_general n events []).1 (by simpa using h1)
  · intro hn hlen
    have h := (runAggregator_general n events []).2 (by simpa using hlen)
      (by omega)
    simpa using h

/-- Witness for C1 at N = 3 with answers arriving in the order C, A, B:
the combined output preserves arrival order C, A, B. -/
theorem combine_answers_exact_count_witness :
    runAggregator 3 []
      [⟨"qC".data, "aC".data⟩, ⟨"qA".data, "aA".data⟩,
       ⟨"qB".data, "aB".data⟩] =
      some ("Q: qC\nA: aC\n\nQ: qA\nA: aA\n\nQ: qB\nA: aB".data) := by
  have h := (combine_answers_exact_count 3
    [⟨"qC".data, "aC".data⟩, ⟨"qA".data, "aA".data⟩,
     ⟨"qB".data, "aB".data⟩]).2 (by decide) rfl
  rw [h]
  decide

/-! ## Theorems about the polling loop -/

theorem poll_loop_step (responses : Nat → PollResponse) (rem attempt : Nat)
    (h : isTerminalState (responses attempt) = false) :
    poll_generation_loop responses (rem + 1) attempt =
      poll_generation_loop responses rem (attempt + 1) := by
  cases hr : responses attempt with
  | exn m => simp [poll_generation_loop, hr]
  | status s r =>
    rw [hr, isTerminalState] at h
    simp only [Bool.or_eq_false_iff, decide_eq_false_iff_not] at h
    simp [poll_generation_loop, hr, h.1, h.2]

theorem poll_loop_skip (responses : Nat → PollResponse) :
    ∀ (k rem a : Nat), k ≤ rem →
      (∀ j, j < k → isTerminalState (responses (a + j)) = false) →
      poll_generation_loop responses rem a =
        poll_generation_loop responses (rem - k) (a + k) := by
  intro k
  induction k with
  | zero => intro rem a _ _; simp
  | succ k ih =>
    intro rem a hk hnt
    cases rem with
    | zero => omega
    | succ rem =>
      rw [poll_loop_step responses rem a (by simpa using hnt 0 (by omega))]
      have hrec := ih rem (a + 1) (by omega) (fun j hj => by
        have h1 := hnt (j + 1) (by omega)
        have h2 : a + (j + 1) = a + 1 + j := by omega
        rwa [h2] at h1)
      rw [hrec]
      have e1 : rem + 1 - (k + 1) = rem - k := by omega
      have e2 : a + (k + 1) = a + 1 + k := by omega
      rw [e1, e2]

/-- C5: for every sequence of job-status responses, the polling loop
returns normally when the job becomes "completed" within the attempt
budget (after which the caller returns the final video asset), raises
with the failure reason attached when the job reports "failed" on the
poll that reaches it, and raises a max-attempts error when no poll within
the budget observes a terminal state. -/
theorem poll_generation_spec (max_attempts : Nat)
    (responses : Nat → PollResponse) :
    (∀ k r, k < max_attempts →
      (∀ j, j < k → isTerminalState (responses j) = false) →
      responses k = .status "completed".data r →
      poll_generation max_attempts responses = .ok () ∧
      ∀ video_asset, generate_luma_video_result
        (poll_generation max_attempts responses) "completed".data
          video_asset = .ok video_asset) ∧
    (∀ k reason, k < max_attempts →
      (∀ j, j < k → isTerminalState (responses j) = false) →
      responses k = .status "failed".data reason →
      poll_generation max_attempts responses =
        .error ("Generation failed: ".data ++ reason)) ∧
    ((∀ j, j < max_attempts → isTerminalState (responses j) = false) →
      poll_generation max_attempts responses =
        .error "Max attempts reached".data) := by
  refine ⟨?_, ?_, ?_⟩
  · intro k r hk hnt hresp
    have hskip := poll_loop_skip responses k max_attempts 0 (by omega)
      (fun j hj => by simpa using hnt j hj)
    have hrem : max_attempts - k = (max_attempts - k - 1) + 1 := by omega
    have hok : poll_generation max_attempts responses = .ok () := by
      rw [poll_generation, hskip, hrem]
      simp [poll_generation_loop, hresp]
    exact ⟨hok, fun v => by simp [generate_luma_video_result, hok]⟩
  · intro k reason hk hnt hresp
    have hskip := poll_loop_skip responses k max_attempts 0 (by omega)
      (fun j hj => by simpa using hnt j hj)
    have hrem : max_attempts - k = (max_attempts - k - 1) + 1 := by omega
    rw [poll_generation, hskip, hrem]
    simp [poll_generation_loop, hresp]
  · intro hnt
    have hskip := poll_loop_skip responses max_attempts max_attempts 0
      (by omega) (fun j hj => by simpa using hnt j hj)
    rw [poll_generation, hskip]
    simp [poll_generation_loop]

/-- Witness for C5: a job that reports "processing" for 3 polls and then
"completed" makes the loop (budget 30) return normally and the caller
return the asset. -/
theorem poll_generation_spec_witness :
    poll_generation 30
      (fun i => if i < 3 then .status "processing".data "".data
                else .status "completed".data "".data) = .ok () ∧
    generate_luma_video_result
      (poll_generation 30
        (fun i => if i < 3 then .status "processing".data "".data
                  else .status "completed".data "".data))
      "completed".data "video.mp4".data = .ok "video.mp4".data := by
  have h := (poll_generation_spec 30
    (fun i => if i < 3 then .status "processing".data "".data
              else .status "completed".data "".data)).1 3 "".data
    (by omega) (by decide) (by decide)
  exact ⟨h.1, h.2 "video.mp4".data⟩

/-! ## Theorems about the main-video pipeline -/

/-- C9: the expected number of scenes is ceil(audio_duration / 5);
whenever the script analysis yields a different number of scenes the run
fails with the descriptive scene-count-mismatch error and produces no
final video. -/
theorem process_main_video_scene_count_mismatch (audio_duration : ℚ)
    (script_analysis : ScriptAnalysis) (assemble : ScriptAnalysis → Str)
    (h : (script_analysis.scenes.length : ℤ) ≠ Int.ceil (audio_duration / 5)) :
    process_main_video audio_duration script_analysis assemble =
      .error ("Number of scenes (".data ++
        (Nat.repr script_analysis.scenes.length).data ++
        ") does not match the expected number of images (".data ++
        (toString (Int.ceil (audio_duration / 5))).data ++ ")".data) ∧
    ∀ video, process_main_video audio_duration script_analysis assemble ≠
      .ok video := by
  have he : process_main_video audio_duration script_analysis assemble =
      .error ("Number of scenes (".data ++
        (Nat.repr script_analysis.scenes.length).data ++
        ") does not match the expected number of images (".data ++
        (toString (Int.ceil (audio_duration / 5))).data ++ ")".data) := by
    simp [process_main_video, h]
  exact ⟨he, fun video hv => by rw [he] at hv; cases hv⟩

/-- Witness for C9: an analysis with 0 scenes against a 7-second audio
(expected ceil(7/5) = 2 scenes) fails with the mismatch error. -/
theorem process_main_video_scene_count_mismatch_witness :
    process_main_video 7 ⟨[]⟩ (fun _ => []) =
      .error ("Number of scenes (".data ++ (Nat.repr 0).data ++
        ") does not match the expected number of images (".data ++
        (toString (Int.ceil ((7 : ℚ) / 5))).data ++ ")".data) ∧
    ∀ video, process_main_video 7 ⟨[]⟩ (fun _ => []) ≠ .ok video := by
  have hc : Int.ceil ((7 : ℚ) / 5) = 2 := by
    rw [Int.ceil_eq_iff]
    norm_num
  exact process_main_video_scene_count_mismatch 7 ⟨[]⟩ (fun _ => [])
    (by rw [hc]; decide)

/-! ## Theorems about `split_script` -/

theorem words_loop_sound :
    ∀ (l cur : Str), (∀ c ∈ cur, isWs c = false) →
      ∀ w ∈ words_loop l cur, w ≠ [] ∧ ∀ c ∈ w, isWs c = false := by
  intro l
  induction l with
  | nil =>
    intro cur hcur w hw
    by_cases hc : cur = []
    · simp [words_loop, hc] at hw
    · simp [words_loop, hc] at hw
      exact hw ▸ ⟨hc, hcur⟩
  | cons c cs ih =>
    intro cur hcur w hw
    by_cases hws : isWs c = true
    · by_cases hc : cur = []
      · rw [words_loop, if_pos hws, if_pos hc] at hw
        exact ih [] (by simp) w hw
      · rw [words_loop, if_pos hws, if_neg hc] at hw
        rcases List.mem_cons.mp hw with h | h
        · exact h ▸ ⟨hc, hcur⟩
        · exact ih [] (by simp) w h
    · rw [words_loop, if_neg hws] at hw
      refine ih (cur ++ [c]) ?_ w hw
      intro d hd
      rcases List.mem_append.mp hd with h | h
      · exact hcur d h
      · simp at h
        subst h
        simpa using hws

theorem words_loop_word (w : Str) (hw : ∀ c ∈ w, isWs c = false) :
    ∀ (rest cur : Str), words_loop (w ++ rest) cur = words_loop rest (cur ++ w) := by
  induction w with
  | nil => intro rest cur; simp
  | cons c w2 ih =>
    intro rest cur
    have hc : isWs c = false := hw c (by simp)
    rw [List.cons_append, words_loop, if_neg (by simp [hc])]
    rw [ih (fun d hd => hw d (by simp [hd])) rest (cur ++ [c])]
    rw [List.append_assoc]
    rfl

theorem pySplit_joinSep :
    ∀ ws : List Str,
      (∀ w ∈ ws, w ≠ [] ∧ ∀ c ∈ w, isWs c = false) →
      pySplit (joinSep " ".data ws) = ws := by
  intro ws
  induction ws with
  | nil => intro _; rfl
  | cons w tail ih =>
    intro hws
    have hw := hws w (by simp)
    cases tail with
    | nil =>
      show words_loop w [] = [w]
      calc words_loop w []
          = words_loop (w ++ []) [] := by rw [List.append_nil]
        _ = words_loop [] ([] ++ w) := words_loop_word w hw.2 [] []
        _ = [w] := by simp [words_loop, hw.1]
    | cons v tail2 =>
      show pySplit (joinSep " ".data (w :: v :: tail2)) = w :: v :: tail2
      rw [joinSep, pySplit]
      have hsplit : w ++ " ".data ++ joinSep " ".data (v :: tail2) =
          w ++ (' ' :: joinSep " ".data (v :: tail2)) := by
        rw [List.append_assoc]
        rfl
      rw [hsplit]
      rw [words_loop_word w hw.2 (' ' :: joinSep " ".data (v :: tail2)) []]
      rw [words_loop, if_pos (by rfl), if_neg (by simpa using hw.1)]
      exact congrArg (w :: ·) (ih (fun x hx => hws x (by simp [hx])))

theorem flatten_take_chunks (l : List Str) (wpp : Nat) :
    ∀ k : Nat,
      ((List.range k).map (fun i => (l.drop (i * wpp)).take wpp)).flatten =
        l.take (k * wpp) := by
  intro k
  induction k with
  | zero => simp
  | succ k ih =>
    rw [List.range_succ, List.map_append, List.flatten_append, ih]
    rw [Nat.succ_mul, List.take_add]
    simp

/-- C10: for every script and every num_parts ≥ 1, `split_script` returns
exactly num_parts strings, and concatenating the whitespace-split word
sequences of the parts recovers the whitespace-split word sequence of the
input script — no word lost, duplicated, or reordered. -/
theorem split_script_preserves_words (script : Str) (num_parts : Nat)
    (h : 1 ≤ num_parts) :
    (split_script script num_parts).length = num_parts ∧
    ((split_script script num_parts).map pySplit).flatten = pySplit script := by
  obtain ⟨m, rfl⟩ : ∃ m, num_parts = m + 1 :=
    ⟨num_parts - 1, by omega⟩
  constructor
  · simp [split_script]
  · set words := pySplit script with hwords
    set wpp := words.length / (m + 1) with hwpp
    have hclean : ∀ w ∈ words, w ≠ [] ∧ ∀ c ∈ w, isWs c = false := by
      intro w hw
      exact words_loop_sound script [] (by simp) w hw
    have hpart : ∀ i : Nat,
        pySplit (joinSep " ".data ((words.drop (i * wpp)).take
          ((if i ≠ m then i * wpp + wpp else words.length) - i * wpp))) =
        (words.drop (i * wpp)).take
          ((if i ≠ m then i * wpp + wpp else words.length) - i * wpp) := by
      intro i
      refine pySplit_joinSep _ (fun w hw => hclean w ?_)
      exact ((List.take_sublist ..).trans (List.drop_sublist ..)).subset hw
    have hmap : (split_script script (m + 1)).map pySplit =
        (List.range (m + 1)).map (fun i =>
          (words.drop (i * wpp)).take
            ((if i ≠ m then i * wpp + wpp else words.length) - i * wpp)) := by
      rw [split_script, List.map_map]
      refine List.map_congr_left (fun i _ => ?_)
      simpa using hpart i
    rw [hmap, List.range_succ, List.map_append, List.flatten_append]
    have hfirst : (List.range m).map (fun i =>
        (words.drop (i * wpp)).take
          ((if i ≠ m then i * wpp + wpp else words.length) - i * wpp)) =
        (List.range m).map (fun i => (words.drop (i * wpp)).take wpp) := by
      refine List.map_congr_left (fun i hi => ?_)
      have him : i ≠ m := by
        have := List.mem_range.mp hi
        omega
      rw [if_pos him, Nat.add_sub_cancel_left]
    have hlast : (words.drop (m * wpp)).take
        ((if m ≠ m then m * wpp + wpp else words.length) - m * wpp) =
        words.drop (m * wpp) := by
      rw [if_neg (by simp)]
      refine List.take_of_length_le ?_
      rw [List.length_drop]
    rw [hfirst]
    simp only [List.map_cons, List.map_nil, List.flatten_cons, List.flatten_nil,
      List.append_nil]
    rw [hlast, flatten_take_chunks]
    exact List.take_append_drop ..

/-- Witness for C10: splitting a three-word script into 2 parts. -/
theorem split_script_preserves_words_witness :
    (split_script "alpha beta gamma".data 2).length = 2 ∧
    ((split_script "alpha beta gamma".data 2).map pySplit).flatten =
      pySplit "alpha beta gamma".data :=
  split_script_preserves_words "alpha beta gamma".data 2 (by omega)

/-! ## Theorems about the round-trip through the spec's parser -/

theorem splitOnChar_ne_nil (c : Char) : ∀ l : Str, splitOnChar c l ≠ [] := by
  intro l
  induction l with
  | nil => simp [splitOnChar]
  | cons x xs ih =>
    rw [splitOnChar]
    cases h : splitOnChar c xs with
    | nil => simp
    | cons r rs =>
      by_cases hx : x = c <;> simp [hx]

theorem splitOnChar_no_occurrence (c : Char) :
    ∀ l : Str, c ∉ l → splitOnChar c l = [l] := by
  intro l
  induction l with
  | nil => intro _; rfl
  | cons x xs ih =>
    intro hn
    have hx : x ≠ c := fun h => hn (by simp [h])
    have hxs : c ∉ xs := fun h => hn (by simp [h])
    rw [splitOnChar, ih hxs]
    simp [hx]

theorem splitOnChar_append (c : Char) :
    ∀ (l m : Str), c ∉ l →
      splitOnChar c (l ++ c :: m) = l :: splitOnChar c m := by
  intro l
  induction l with
  | nil =>
    intro m _
    rw [List.nil_append, splitOnChar]
    cases h : splitOnChar c m with
    | nil => exact absurd h (splitOnChar_ne_nil c m)
    | cons r rs => simp
  | cons x xs ih =>
    intro m hn
    have hx : x ≠ c := fun h => hn (by simp [h])
    have hxs : c ∉ xs := fun h => hn (by simp [h])
    rw [List.cons_append, splitOnChar, ih m hxs]
    simp [hx]

theorem splitOnChar_cons_self (c : Char) (m : Str) :
    splitOnChar c (c :: m) = [] :: splitOnChar c m := by
  have h := splitOnChar_append c [] m (by simp)
  simpa using h

theorem isPrefixOf_append_self (p q : Str) : p.isPrefixOf (p ++ q) = true :=
  List.isPrefixOf_iff_prefix.mpr (List.prefix_append p q)

theorem drop_three_Q (q : Str) : ("Q: ".data ++ q).drop 3 = q := rfl

theorem drop_three_A (q : Str) : ("A: ".data ++ q).drop 3 = q := rfl

/-- C6 (amended): for every list of answer events whose questions and
answers contain no newline character, parsing the aggregator's combined
text with the marker/blank-line parser recovers exactly the (question,
answer) pairs supplied, in the same order. -/
theorem parse_combined_roundtrip :
    ∀ events : List SubAnswerEvent,
      (∀ e ∈ events, '\n' ∉ e.question ∧ '\n' ∉ e.sub_answer) →
      parsePairs (combined_answer events) =
        events.map (fun e => (e.question, e.sub_answer)) := by
  intro events
  induction events with
  | nil => intro _; rfl
  | cons e tail ih =>
    intro h
    have he := h e (by simp)
    have hnoQ : '\n' ∉ ("Q: ".data ++ e.question) := by
      intro hmem
      rcases List.mem_append.mp hmem with h1 | h2
      · exact absurd h1 (by decide)
      · exact he.1 h2
    have hnoA : '\n' ∉ ("A: ".data ++ e.sub_answer) := by
      intro hmem
      rcases List.mem_append.mp hmem with h1 | h2
      · exact absurd h1 (by decide)
      · exact he.2 h2
    cases tail with
    | nil =>
      show parseQA (splitOnChar '\n'
        ("Q: ".data ++ e.question ++ "\nA: ".data ++ e.sub_answer)) =
        [(e.question, e.sub_answer)]
      have hshape : ("Q: ".data ++ e.question ++ "\nA: ".data ++
          e.sub_answer : Str) =
          ("Q: ".data ++ e.question) ++ '\n' ::
            ("A: ".data ++ e.sub_answer) := by
        simp only [List.append_assoc]
        rfl
      rw [hshape, splitOnChar_append '\n' _ _ hnoQ,
        splitOnChar_no_occurrence '\n' _ hnoA]
      simp [parseQA, isPrefixOf_append_self, drop_three_Q, drop_three_A]
    | cons f tail2 =>
      show parseQA (splitOnChar '\n'
        (("Q: ".data ++ e.question ++ "\nA: ".data ++ e.sub_answer) ++
          "\n\n".data ++ combined_answer (f :: tail2))) =
        (e.question, e.sub_answer) ::
          (f :: tail2).map (fun e => (e.question, e.sub_answer))
      have hshape : ((("Q: ".data ++ e.question ++ "\nA: ".data ++
          e.sub_answer) ++ "\n\n".data ++
            combined_answer (f :: tail2)) : Str) =
          ("Q: ".data ++ e.question) ++ '\n' ::
            (("A: ".data ++ e.sub_answer) ++ '\n' ::
              ('\n' :: combined_answer (f :: tail2))) := by
        simp only [List.append_assoc]
        rfl
      rw [hshape, splitOnChar_append '\n' _ _ hnoQ,
        splitOnChar_append '\n' _ _ hnoA, splitOnChar_cons_self]
      have htail := ih (fun x hx => h x (by simp [hx]))
      simp only [parsePairs] at htail
      simp [parseQA, isPrefixOf_append_self, drop_three_Q, drop_three_A,
        htail]

/-- Witness for the amended C6 at two newline-free pairs. -/
theorem parse_combined_roundtrip_witness :
    parsePairs (combined_answer
      [⟨"q1".data, "a1".data⟩, ⟨"q2".data, "a2".data⟩]) =
      [("q1".data, "a1".data), ("q2".data, "a2".data)] := by
  have h := parse_combined_roundtrip
    [⟨"q1".data, "a1".data⟩, ⟨"q2".data, "a2".data⟩] (by decide)
  rw [h]
  rfl

/-- C6 counterexample: an answer text that itself contains the blank-line
separator and the markers is split by the parser, so the recovered pairs
differ from the pairs supplied to the aggregator. -/
theorem parse_combined_not_injective :
    parsePairs (combined_answer [⟨"q".data, "a\n\nQ: r\nA: b".data⟩]) ≠
      [("q".data, "a\n\nQ: r\nA: b".data)] := by
  decide

/-- Supporting fact: the extraction step itself always yields one scene
per script part, hence exactly `num_images` scenes whenever it returns —
the scene-count check in `process_main_video` guards against an analysis
that does not have this shape. -/
theorem extract_descriptions_length (complete : Nat → Str → SceneDescription)
    (script : Str) (num_images : Nat) :
    (extract_descriptions complete script num_images).scenes.length =
      num_images := by
  simp [extract_descriptions, split_script]
